import Mathlib

set_option autoImplicit false

/-!
Verification of the kestra-io/actions release automation.

The development shallowly embeds the repository's scripts:
* `src/composite/plugin-release/release.sh` (the validated variant, the file's
  second copy; the first copy shares the code the claims cite verbatim) as
  `releaseRun`, a function from the CLI arguments and a repository state to a
  trace of git/gradle effects and an exit result;
* `src/actions/comment-update/src/index.ts` (`_simpleHash`, `_sectionContent`,
  `_findComment`, `_addComment`) as `simpleHash`, `sectionContent`,
  `findComment`, `addComment`;
* `src/composite/github-release-note-merge/github-release-note-merge.js`
  (`getMergedChangelog`, `updateReleaseNotes`, `main`) as `getMergedChangelog`
  and `mainRun`;
* the commit classifier / bump policy (spec sections 4.2-4.3) and the hotfix
  orchestrator (spec section 4.5), whose implementations are not part of the
  repository sources, modelled from the spec.

Strings are modelled as `List Char`.
-/

namespace KestraActions

abbrev Str := List Char

/-! ## Shell string helpers (cut, sed, suffix tests, bash arithmetic) -/

/-- `[0-9]` character class. -/
def isDigitCh (c : Char) : Bool := 48 ≤ c.toNat && c.toNat ≤ 57

/-- Split a character list at every occurrence of the delimiter `d`.
The result always has one more element than the number of delimiters. -/
def splitOnCh (d : Char) : Str → List Str
  | [] => [[]]
  | c :: rest =>
    let r := splitOnCh d rest
    if c = d then [] :: r
    else (c :: r.headD []) :: r.tail

/-- `cut -d⟨d⟩ -f⟨k⟩` (1-based, GNU semantics, no `-s`): a line containing no
delimiter is printed whole whatever the field number; otherwise the `k`-th
field, empty when `k` exceeds the field count. -/
def cutField (d : Char) (k : Nat) (s : Str) : Str :=
  if d ∈ s then (splitOnCh d s).getD (k - 1) [] else s

/-- Bash suffix test: `[[ s == *pat ]]` / `[[ s =~ pat$ ]]` for a literal
pattern `pat`. -/
def hasSuffix (pat s : Str) : Bool := pat.isSuffixOf s

/-- `sed s/pat//` on one line: delete the first occurrence of the literal
pattern `pat`, leave the line unchanged when `pat` does not occur. -/
def stripFirst (pat : Str) : Str → Str
  | [] => []
  | c :: rest =>
    if pat.isPrefixOf (c :: rest) then (c :: rest).drop pat.length
    else c :: stripFirst pat rest

/-- Bash `(( ))` arithmetic on a decimal numeral: the value of a string of
digits (the script only compares version components, which are digit runs). -/
def bashNum (s : Str) : Nat := s.foldl (fun a c => a * 10 + (c.toNat - 48)) 0

/-- Regex `^[0-9]+$`. -/
def isDigits (s : Str) : Bool := !s.isEmpty && s.all isDigitCh

/-- Substring test (`grep -q pat`, JS `includes`): does `pat` occur inside `s`. -/
def containsSub (pat : Str) : Str → Bool
  | [] => pat.isPrefixOf []
  | c :: rest => pat.isPrefixOf (c :: rest) || containsSub pat rest

/-- Regex `^[0-9]+\.0\.0$` (MAJOR release shape). -/
def matchMajorRe (s : Str) : Bool :=
  match splitOnCh '.' s with
  | [a, b, c] => isDigits a && b = ['0'] && c = ['0']
  | _ => false

/-- Regex `^[0-9]+\.[1-9][0-9]*\.0$` (MINOR release shape). -/
def matchMinorRe (s : Str) : Bool :=
  match splitOnCh '.' s with
  | [a, b, c] =>
    isDigits a &&
      (match b with
       | d :: ds => (49 ≤ d.toNat && d.toNat ≤ 57) && ds.all isDigitCh
       | [] => false) &&
      c = ['0']
  | _ => false

/-- `grep -Eo '^[0-9]+\.[0-9]+'`: the longest leading `digits.digits` match,
`none` when there is no match (then `grep` exits 1 and, under `set -e`, the
assignment `BASE_VERSION=$(...)` terminates the script). -/
def grepBaseVersion (s : Str) : Option Str :=
  let a := s.takeWhile isDigitCh
  if a.isEmpty then none
  else
    match s.drop a.length with
    | '.' :: rest =>
      let b := rest.takeWhile isDigitCh
      if b.isEmpty then none else some (a ++ '.' :: b)
    | _ => none

/-! ## Embedding of `src/composite/plugin-release/release.sh`

The second (validated) copy of the script, lines 211-407; the PATCH branch
check, tag check and branch-creation step are verbatim identical in the first
copy (lines 90-154). -/

/-- One observable git/gradle action performed by the script. `echo` output and
the `git remote set-url` credential rewrite are not modelled (they do not touch
the repository contents). -/
inductive Eff where
  | checkout (b : Str)
  | pull (b : Str)
  | fetch
  | setVersion (v : Str)
  | setKestra (v : Str)
  | commitProps (v : Str)
  | tagCreate (t : Str)
  | pushBranch (b : Str)
  | pushTag (t : Str)
  | checkoutNewBranch (b : Str)
  | gradleRelease (rv nv : Str)
  deriving DecidableEq, Repr

/-- The script's fatal exits (each is `exit 1`), plus `checkoutFailed`: the
failure of a bare `git checkout` propagated by `set -euo pipefail`, and
`malformedVersion`: the `set -e` exit when `grep -Eo` finds no `X.Y` prefix. -/
inductive RErr where
  | kestraSnapshot
  | nextNotSnapshot
  | inconsistentMinor
  | invalidPatchSnapshot
  | invalidPatchStable
  | unknownReleaseType
  | malformedVersion
  | tagExists
  | branchMissing
  | checkoutFailed (b : Str)
  deriving DecidableEq, Repr

/-- Repository state visible to the script: remote heads, refs visible to
`git rev-parse` (tags), the remote HEAD branch, and the value of the first
`version=` line of `gradle.properties` (empty when absent, as produced by
`grep '^version=' gradle.properties || echo ""` piped through `cut`). -/
structure RepoState where
  remoteBranches : List Str
  tags : List Str
  defaultBranch : Str
  currentVersion : Str
  deriving DecidableEq, Repr

deriving instance DecidableEq for Except

structure RunOut where
  trace : List Eff
  result : Except RErr Unit
  deriving DecidableEq, Repr

/-- `git ls-remote --heads origin b`: first component is the exit status,
second the matching remote head lines. Without `--exit-code` (the source passes
none) the exit status reflects only whether the remote could be contacted —
0 here, the remote being modelled as reachable — *regardless* of whether any
ref matches; a missing branch yields exit 0 with empty output. -/
def lsRemoteHeads (st : RepoState) (b : Str) : Nat × List Str :=
  (0, st.remoteBranches.filter (· = b))

/-- `git ls-remote --heads origin "$RELEASE_BRANCH" | grep -q "$RELEASE_BRANCH"`:
the grep succeeds exactly when some output line contains the branch name. -/
def remoteBranchExists (st : RepoState) (b : Str) : Bool :=
  ((lsRemoteHeads st b).2.any (fun line => containsSub b line))

/-- release.sh lines 378-388: in MAJOR/MINOR mode, create and push the release
branch when it is absent from the remote, otherwise only log. -/
def branchCreationStep (dryRun : Bool) (st : RepoState) (releaseBranch : Str) :
    List Eff :=
  if !remoteBranchExists st releaseBranch then
    Eff.checkoutNewBranch releaseBranch ::
      (if dryRun then [] else [Eff.pushBranch releaseBranch])
  else []

/-- Effect of one trace entry on the repository state: pushed branches and
created tags become visible; `./gradlew release` creates and pushes the tag
`v⟨rv⟩` and moves `gradle.properties` to the next version (per the script's
own comment at lines 399-403). -/
def applyEff (st : RepoState) : Eff → RepoState
  | .pushBranch b =>
    { st with remoteBranches :=
        if b ∈ st.remoteBranches then st.remoteBranches
        else st.remoteBranches ++ [b] }
  | .tagCreate t =>
    { st with tags := if t ∈ st.tags then st.tags else st.tags ++ [t] }
  | .gradleRelease rv nv =>
    { st with
        tags :=
          if ('v' :: rv) ∈ st.tags then st.tags else st.tags ++ ['v' :: rv],
        currentVersion := nv }
  | .setVersion v => { st with currentVersion := v }
  | _ => st

def applyTrace (st : RepoState) (tr : List Eff) : RepoState :=
  tr.foldl applyEff st

/-- `RELEASE_BRANCH="releases/v${BASE_VERSION}.x"` (release.sh line 319). -/
def releaseBranchName (bv : Str) : Str :=
  "releases/v".toList ++ bv ++ ".x".toList

/-- release.sh lines 331-366, the PATCH flow: branch-existence check (by the
`git ls-remote` *exit status*), checkout and pull of the release branch
(`git checkout ⟨branch⟩` succeeds exactly when a matching remote branch
exists: the script runs in a fresh CI clone, where checkout of a bare name
falls back to creating a local branch tracking the remote one), the
gradle.properties edits and commit, then — unless dry run — tag and pushes. -/
def patchFlow (rv kv : Str) (dryRun : Bool) (st : RepoState) (rb : Str) :
    RunOut :=
  if (lsRemoteHeads st rb).1 ≠ 0 then ⟨[], .error .branchMissing⟩
  else if rb ∉ st.remoteBranches then ⟨[], .error (.checkoutFailed rb)⟩
  else
    let pre :=
      [Eff.checkout rb, Eff.pull rb, Eff.setVersion rv]
      ++ (if kv ≠ [] then [Eff.setKestra kv] else [])
      ++ [Eff.commitProps rv]
    if dryRun then ⟨pre, .ok ()⟩
    else
      ⟨pre ++ [Eff.tagCreate ('v' :: rv), Eff.pushBranch rb,
        Eff.pushTag ('v' :: rv)], .ok ()⟩

/-- release.sh lines 367-407, the MAJOR/MINOR flow: checkout/pull/fetch on the
default branch, the branch-creation step, return to the default branch, then
— unless dry run — the gradle release. -/
def minorFlow (rv nv : Str) (dryRun : Bool) (st : RepoState) (rb : Str) :
    RunOut :=
  ⟨[Eff.checkout st.defaultBranch, Eff.pull st.defaultBranch, Eff.fetch]
    ++ branchCreationStep dryRun st rb
    ++ [Eff.checkout st.defaultBranch]
    ++ (if dryRun then [] else [Eff.gradleRelease rv nv]), .ok ()⟩

/-- release.sh lines 284-407: release-type determination, tag/branch naming,
tag-collision check, then the PATCH flow or the MAJOR/MINOR flow. -/
def releaseCore (rv nv kv : Str) (dryRun : Bool) (st : RepoState) : RunOut :=
  let rtype : Option Nat :=
    if nv = [] then some 0
    else if matchMajorRe rv then some 1
    else if matchMinorRe rv then some 2
    else none
  match rtype with
  | none => ⟨[], .error .unknownReleaseType⟩
  | some _ =>
    match grepBaseVersion rv with
    | none => ⟨[], .error .malformedVersion⟩
    | some bv =>
      if ('v' :: rv) ∈ st.tags then ⟨[], .error .tagExists⟩
      else if nv = [] then patchFlow rv kv dryRun st (releaseBranchName bv)
      else minorFlow rv nv dryRun st (releaseBranchName bv)

/-- release.sh lines 218-221: `[[ -n kv && kv == *"-SNAPSHOT" ]]`. -/
def kestraBad (kv : Str) : Bool := !kv.isEmpty && hasSuffix "-SNAPSHOT".toList kv

/-- release.sh lines 224-227: `[[ -n nv && ! nv =~ -SNAPSHOT$ ]]`. -/
def nextBad (nv : Str) : Bool := !nv.isEmpty && !hasSuffix "-SNAPSHOT".toList nv

/-- release.sh lines 253-255: in MINOR/MAJOR mode, current version is a
SNAPSHOT and the release version differs from its base. -/
def minorMismatch (cur rv : Str) : Bool :=
  hasSuffix "SNAPSHOT".toList cur && rv ≠ stripFirst "-SNAPSHOT".toList cur

/-- release.sh lines 265-266: `(( RM > CM )) || (( RM == CM && Rm >= Cm ))`
with the components extracted by `cut` from the stripped current version. -/
def patchRejSnap (cur rv : Str) : Bool :=
  let curBase := stripFirst "-SNAPSHOT".toList cur
  bashNum (cutField '.' 1 rv) > bashNum (cutField '.' 1 curBase) ||
    (bashNum (cutField '.' 1 rv) = bashNum (cutField '.' 1 curBase) &&
      bashNum (cutField '.' 2 rv) ≥ bashNum (cutField '.' 2 curBase))

/-- release.sh lines 274-275: `(( RM > CM )) || (( RM == CM && Rm > Cm ))`. -/
def patchRejStable (cur rv : Str) : Bool :=
  let curBase := stripFirst "-SNAPSHOT".toList cur
  bashNum (cutField '.' 1 rv) > bashNum (cutField '.' 1 curBase) ||
    (bashNum (cutField '.' 1 rv) = bashNum (cutField '.' 1 curBase) &&
      bashNum (cutField '.' 2 rv) > bashNum (cutField '.' 2 curBase))

/-- release.sh (validated variant), from the top: argument validation
(lines 218-227), version coherence rules (lines 234-282), then
`releaseCore`. -/
def releaseRun (rv nv kv : Str) (dryRun : Bool) (st : RepoState) : RunOut :=
  if kestraBad kv then ⟨[], .error .kestraSnapshot⟩
  else if nextBad nv then ⟨[], .error .nextNotSnapshot⟩
  else if nv = [] then
    if hasSuffix "SNAPSHOT".toList st.currentVersion then
      if patchRejSnap st.currentVersion rv then
        ⟨[], .error .invalidPatchSnapshot⟩
      else releaseCore rv nv kv dryRun st
    else
      if patchRejStable st.currentVersion rv then
        ⟨[], .error .invalidPatchStable⟩
      else releaseCore rv nv kv dryRun st
  else
    if minorMismatch st.currentVersion rv then ⟨[], .error .inconsistentMinor⟩
    else releaseCore rv nv kv dryRun st

/-- Effects a dry run must skip according to the spec sentence for `dryRun`:
tag creation, any push, and the gradle release (which itself tags and pushes). -/
def skippedInDry : Eff → Bool
  | .tagCreate _ => true
  | .pushBranch _ => true
  | .pushTag _ => true
  | .gradleRelease _ _ => true
  | _ => false

def isBranchCreate : Eff → Bool
  | .checkoutNewBranch _ => true
  | _ => false

/-! ## Lemmas about the release script -/

theorem isPrefixOf_self (l : Str) : l.isPrefixOf l = true := by
  induction l with
  | nil => rfl
  | cons c r ih => simp [List.isPrefixOf, ih]

theorem containsSub_self (l : Str) : containsSub l l = true := by
  cases l with
  | nil => rfl
  | cons c r => simp [containsSub, isPrefixOf_self]

theorem remoteBranchExists_iff (st : RepoState) (b : Str) :
    remoteBranchExists st b = true ↔ b ∈ st.remoteBranches := by
  unfold remoteBranchExists lsRemoteHeads
  simp only [List.any_eq_true, List.mem_filter]
  constructor
  · rintro ⟨l, ⟨hl, he⟩, -⟩
    have : l = b := by simpa using he
    exact this ▸ hl
  · intro h
    exact ⟨b, ⟨h, by simp⟩, containsSub_self b⟩

theorem patchFlow_result (rv kv : Str) (d : Bool) (st : RepoState)
    (rb : Str) :
    (patchFlow rv kv d st rb).result = .ok () ∨
    (patchFlow rv kv d st rb).result = .error .branchMissing ∨
    (patchFlow rv kv d st rb).result = .error (.checkoutFailed rb) := by
  unfold patchFlow
  repeat' first
    | dsimp only
    | split
  all_goals simp

theorem minorFlow_result (rv nv : Str) (d : Bool) (st : RepoState)
    (rb : Str) : (minorFlow rv nv d st rb).result = .ok () := rfl

theorem patchFlow_ne_patch_err (rv kv : Str) (d : Bool) (st : RepoState)
    (rb : Str) :
    (patchFlow rv kv d st rb).result ≠ .error .invalidPatchSnapshot ∧
    (patchFlow rv kv d st rb).result ≠ .error .invalidPatchStable := by
  rcases patchFlow_result rv kv d st rb with h | h | h <;> rw [h] <;>
    exact ⟨by simp, by simp⟩

theorem minorFlow_ne_patch_err (rv nv : Str) (d : Bool) (st : RepoState)
    (rb : Str) :
    (minorFlow rv nv d st rb).result ≠ .error .invalidPatchSnapshot ∧
    (minorFlow rv nv d st rb).result ≠ .error .invalidPatchStable := by
  rw [minorFlow_result]
  exact ⟨by simp, by simp⟩

/-- The body of the script after the coherence checks never reproduces a
coherence-rule error. -/
theorem releaseCore_ne_patch_err (rv nv kv : Str) (d : Bool) (st : RepoState) :
    (releaseCore rv nv kv d st).result ≠ .error .invalidPatchSnapshot ∧
    (releaseCore rv nv kv d st).result ≠ .error .invalidPatchStable := by
  unfold releaseCore
  repeat' first
    | dsimp only
    | split
  all_goals first
    | exact patchFlow_ne_patch_err _ _ _ _ _
    | exact minorFlow_ne_patch_err _ _ _ _ _
    | exact ⟨by simp, by simp⟩

/-- release.sh lines 378-388: no operation when the branch exists remotely. -/
theorem branchCreationStep_eq_nil (st : RepoState) (b : Str) (d : Bool)
    (h : b ∈ st.remoteBranches) : branchCreationStep d st b = [] := by
  unfold branchCreationStep
  rw [(remoteBranchExists_iff st b).mpr h]
  simp

theorem releaseCore_tag_aborts (rv nv kv : Str) (d : Bool) (st : RepoState)
    (h : ('v' :: rv) ∈ st.tags) :
    (releaseCore rv nv kv d st).trace = [] ∧
    (releaseCore rv nv kv d st).result ≠ .ok () := by
  unfold releaseCore
  repeat' first
    | dsimp only
    | split
  all_goals simp_all

/-- C1. For a PATCH run (no nextVersion) whose maintenance branch
`releases/vMAJOR.MINOR.x` is absent from the remote, the script does NOT stop
at its branch-existence check (the `git ls-remote` exit status is 0 whether or
not the branch exists, so the `❌ Branch ... does not exist.` diagnostic at
release.sh:102/336 is unreachable): the run instead dies at `git checkout`
with git's own error — still exit 1 and no mutation, but not the
branch-missing diagnostic. When the branch does exist, the run proceeds on it
and never creates a branch. Evaluates the embedding at the failing input
`./release.sh 2.4.1` with current version `2.5.0-SNAPSHOT`. -/
theorem c1_patch_branch_check_dead_code :
    releaseRun "2.4.1".toList [] [] false
        ⟨[], [], "main".toList, "2.5.0-SNAPSHOT".toList⟩
      = ⟨[], .error (.checkoutFailed "releases/v2.4.x".toList)⟩ ∧
    (releaseRun "2.4.1".toList [] [] false
        ⟨[], [], "main".toList, "2.5.0-SNAPSHOT".toList⟩).result
      ≠ .error .branchMissing ∧
    (releaseRun "2.4.1".toList [] [] false
        ⟨["releases/v2.4.x".toList], [], "main".toList,
          "2.5.0-SNAPSHOT".toList⟩).result = .ok () ∧
    (releaseRun "2.4.1".toList [] [] false
        ⟨["releases/v2.4.x".toList], [], "main".toList,
          "2.5.0-SNAPSHOT".toList⟩).trace.all
      (fun e => !isBranchCreate e) = true := by
  refine ⟨by decide, by decide, by decide, by decide⟩

/-- C2. For a PATCH-mode run (no nextVersion, valid kestraVersion argument)
with the current project version read from gradle.properties as `x.y`
(components of the `-SNAPSHOT`-stripped value, as the script extracts them
with `cut`) and the proposed release version read as `a.b`: when the current
version carries the SNAPSHOT suffix the run is rejected by the coherence rule
exactly when `a > x ∨ (a = x ∧ b ≥ y)`; when it is stable, exactly when
`a > x ∨ (a = x ∧ b > y)` (release.sh lines 261-282). -/
theorem c2_patch_coherence_rules (rv kv : Str) (d : Bool) (st : RepoState)
    (x y a b : Nat)
    (hkv : kestraBad kv = false)
    (hx : bashNum (cutField '.' 1
      (stripFirst "-SNAPSHOT".toList st.currentVersion)) = x)
    (hy : bashNum (cutField '.' 2
      (stripFirst "-SNAPSHOT".toList st.currentVersion)) = y)
    (ha : bashNum (cutField '.' 1 rv) = a)
    (hb : bashNum (cutField '.' 2 rv) = b) :
    (hasSuffix "SNAPSHOT".toList st.currentVersion = true →
      (releaseRun rv [] kv d st = ⟨[], .error .invalidPatchSnapshot⟩ ↔
        (a > x ∨ (a = x ∧ b ≥ y)))) ∧
    (hasSuffix "SNAPSHOT".toList st.currentVersion = false →
      (releaseRun rv [] kv d st = ⟨[], .error .invalidPatchStable⟩ ↔
        (a > x ∨ (a = x ∧ b > y)))) := by
  subst hx hy ha hb
  have hcore := releaseCore_ne_patch_err rv [] kv d st
  have hguardS : patchRejSnap st.currentVersion rv = true ↔
      (bashNum (cutField '.' 1 rv) >
          bashNum (cutField '.' 1
            (stripFirst "-SNAPSHOT".toList st.currentVersion)) ∨
        (bashNum (cutField '.' 1 rv) =
            bashNum (cutField '.' 1
              (stripFirst "-SNAPSHOT".toList st.currentVersion)) ∧
          bashNum (cutField '.' 2 rv) ≥
            bashNum (cutField '.' 2
              (stripFirst "-SNAPSHOT".toList st.currentVersion)))) := by
    simp [patchRejSnap]
  have hguardT : patchRejStable st.currentVersion rv = true ↔
      (bashNum (cutField '.' 1 rv) >
          bashNum (cutField '.' 1
            (stripFirst "-SNAPSHOT".toList st.currentVersion)) ∨
        (bashNum (cutField '.' 1 rv) =
            bashNum (cutField '.' 1
              (stripFirst "-SNAPSHOT".toList st.currentVersion)) ∧
          bashNum (cutField '.' 2 rv) >
            bashNum (cutField '.' 2
              (stripFirst "-SNAPSHOT".toList st.currentVersion)))) := by
    simp [patchRejStable]
  constructor
  · intro hsnap
    unfold releaseRun
    rw [if_neg (by simp [hkv]), if_neg (by simp [nextBad]),
      if_pos rfl, if_pos hsnap]
    cases hg : patchRejSnap st.currentVersion rv with
    | false =>
      rw [if_neg (by simp)]
      constructor
      · intro h
        exact absurd (congrArg RunOut.result h) hcore.1
      · intro h
        exact absurd (hguardS.mpr h) (by simp [hg])
    | true =>
      rw [if_pos rfl]
      simpa using hguardS.mp hg
  · intro hsnap
    unfold releaseRun
    rw [if_neg (by simp [hkv]), if_neg (by simp [nextBad]),
      if_pos rfl, if_neg (by rw [hsnap]; simp)]
    cases hg : patchRejStable st.currentVersion rv with
    | false =>
      rw [if_neg (by simp)]
      constructor
      · intro h
        exact absurd (congrArg RunOut.result h) hcore.2
      · intro h
        exact absurd (hguardT.mpr h) (by simp [hg])
    | true =>
      rw [if_pos rfl]
      simpa using hguardT.mp hg

/-- C2 witness: patching `1.1.5` while the current development version is
`1.2.0-SNAPSHOT` (so `x.y = 1.2`, `a.b = 1.1`) is allowed by the
snapshot-mode rule. -/
theorem c2_patch_coherence_rules_witness :
    (kestraBad [] = false) ∧
    (hasSuffix "SNAPSHOT".toList "1.2.0-SNAPSHOT".toList = true →
      (releaseRun "1.1.5".toList [] [] false
          ⟨["releases/v1.1.x".toList], [], "main".toList,
            "1.2.0-SNAPSHOT".toList⟩
        = ⟨[], .error .invalidPatchSnapshot⟩ ↔
        (1 > 1 ∨ (1 = 1 ∧ 1 ≥ 2)))) := by
  refine ⟨by decide, ?_⟩
  exact (c2_patch_coherence_rules "1.1.5".toList [] false
    ⟨["releases/v1.1.x".toList], [], "main".toList, "1.2.0-SNAPSHOT".toList⟩
    1 2 1 1 (by decide) (by decide) (by decide) (by decide) (by decide)).1

/-- C3 counterexample: a dry run in PATCH mode still edits gradle.properties
and commits it — the trace of `./release.sh 1.2.1 "" "" true` on a repository
with stable version `1.2.0` and existing branch `releases/v1.2.x` contains the
`setVersion` and `commitProps` mutations (only tag/push are skipped). -/
theorem c3_dry_run_counterexample :
    releaseRun "1.2.1".toList [] [] true
        ⟨["releases/v1.2.x".toList], [], "main".toList, "1.2.0".toList⟩
      = ⟨[Eff.checkout "releases/v1.2.x".toList,
          Eff.pull "releases/v1.2.x".toList,
          Eff.setVersion "1.2.1".toList,
          Eff.commitProps "1.2.1".toList], .ok ()⟩ := by
  decide

/-- C3 (amended). For every run with dryRun true, no tag is created, no branch
or tag is pushed, and the gradle release (which would tag and push) is not
executed; however the PATCH-mode gradle.properties edit and local commit, and
the MAJOR/MINOR-mode local branch creation, are still performed. -/
theorem patchFlow_dry_skips (rv kv : Str) (st : RepoState) (rb : Str) :
    ((patchFlow rv kv true st rb).trace.all fun e => !skippedInDry e)
      = true := by
  unfold patchFlow
  repeat' first
    | dsimp only
    | split
  all_goals simp_all [skippedInDry]

theorem minorFlow_dry_skips (rv nv : Str) (st : RepoState) (rb : Str) :
    ((minorFlow rv nv true st rb).trace.all fun e => !skippedInDry e)
      = true := by
  unfold minorFlow branchCreationStep
  repeat' first
    | dsimp only
    | split
  all_goals simp_all [skippedInDry]

theorem c3_dry_run_skips_tag_and_push (rv nv kv : Str) (st : RepoState) :
    ((releaseRun rv nv kv true st).trace.all fun e => !skippedInDry e)
      = true := by
  unfold releaseRun releaseCore
  repeat' first
    | dsimp only
    | split
  all_goals first
    | rfl
    | exact patchFlow_dry_skips _ _ _ _
    | exact minorFlow_dry_skips _ _ _ _

theorem minorFlow_no_pushBranch (rv nv : Str) (d : Bool) (st : RepoState)
    (rb b2 : Str) (h : rb ∈ st.remoteBranches) :
    Eff.pushBranch b2 ∉ (minorFlow rv nv d st rb).trace := by
  unfold minorFlow
  rw [branchCreationStep_eq_nil st rb d h]
  cases d <;> simp

/-- C4. MAJOR/MINOR branch creation is a no-op when the branch exists:
(1) the branch-creation step (release.sh lines 378-388) performs zero
operations when the release branch is already on the remote; (2) running the
step (dryRun false) twice from any state leaves the same repository state as
running it once (idempotence); (3) in a MAJOR/MINOR-mode run whose release
branch already exists remotely, the whole run performs zero branch pushes. -/
theorem c4_branch_creation_idempotent :
    (∀ (st : RepoState) (b : Str) (d : Bool),
      b ∈ st.remoteBranches → branchCreationStep d st b = []) ∧
    (∀ (st : RepoState) (b : Str),
      applyTrace (applyTrace st (branchCreationStep false st b))
          (branchCreationStep false
            (applyTrace st (branchCreationStep false st b)) b)
        = applyTrace st (branchCreationStep false st b)) ∧
    (∀ (rv nv kv : Str) (d : Bool) (st : RepoState) (b2 : Str),
      nv ≠ [] →
      (∀ bv, grepBaseVersion rv = some bv →
        ("releases/v".toList ++ bv ++ ".x".toList) ∈ st.remoteBranches) →
      Eff.pushBranch b2 ∉ (releaseRun rv nv kv d st).trace) := by
  refine ⟨branchCreationStep_eq_nil, ?_, ?_⟩
  · intro st b
    by_cases hb : b ∈ st.remoteBranches
    · rw [branchCreationStep_eq_nil st b false hb]
      show applyTrace st (branchCreationStep false st b) = st
      rw [branchCreationStep_eq_nil st b false hb]
      rfl
    · have hex : remoteBranchExists st b = false := by
        cases hrb : remoteBranchExists st b
        · rfl
        · exact absurd ((remoteBranchExists_iff st b).mp hrb) hb
      have hstep1 : branchCreationStep false st b
          = [.checkoutNewBranch b, .pushBranch b] := by
        unfold branchCreationStep
        rw [hex]
        simp
      rw [hstep1]
      have h1 : applyTrace st [.checkoutNewBranch b, .pushBranch b]
          = { st with remoteBranches := st.remoteBranches ++ [b] } := by
        simp [applyTrace, applyEff, hb]
      rw [h1]
      rw [branchCreationStep_eq_nil _ b false (by simp)]
      rfl
  · intro rv nv kv d st b2 hnv hbr
    unfold releaseRun releaseCore
    repeat' first
      | dsimp only
      | split
    all_goals first
      | simp
      | exact absurd ‹nv = []› hnv
      | exact minorFlow_no_pushBranch _ _ _ _ _ _ (hbr _ (by assumption))

/-- C4 witness: with `releases/v1.3.x` already on the remote, the
branch-creation step performs no operation. -/
theorem c4_branch_creation_idempotent_witness :
    "releases/v1.3.x".toList ∈
      [("releases/v1.3.x".toList : Str)] ∧
    branchCreationStep false
      ⟨["releases/v1.3.x".toList], [], "main".toList,
        "1.3.0-SNAPSHOT".toList⟩ "releases/v1.3.x".toList = [] :=
  ⟨by decide, c4_branch_creation_idempotent.1
    ⟨["releases/v1.3.x".toList], [], "main".toList, "1.3.0-SNAPSHOT".toList⟩
    "releases/v1.3.x".toList false (by decide)⟩

/-- C5 counterexample: in MAJOR/MINOR mode (nextVersion supplied) with a
*stable* current version `1.2.0`, releasing `9.9.0` — which differs from the
current base version — is NOT rejected: the consistency check of release.sh
lines 251-260 only runs when the current version is a SNAPSHOT. -/
theorem c5_minor_consistency_counterexample :
    (releaseRun "9.9.0".toList "9.10.0-SNAPSHOT".toList [] true
        ⟨[], [], "main".toList, "1.2.0".toList⟩).result = .ok () ∧
    "9.9.0".toList ≠ stripFirst "-SNAPSHOT".toList "1.2.0".toList := by
  refine ⟨by decide, by decide⟩

/-- C5 (amended). In a MAJOR/MINOR-mode run (nextVersion supplied, arguments
valid) whose current recorded version carries the SNAPSHOT suffix, a release
version different from the SNAPSHOT's base is fatal: exit code 1, no
repository mutation (the diagnostic names the only releasable version); when
the current version is stable no such consistency check is performed. -/
theorem c5_minor_consistency (rv nv kv : Str) (d : Bool) (st : RepoState)
    (hkv : kestraBad kv = false)
    (hnv : nv ≠ [])
    (hnvs : hasSuffix "-SNAPSHOT".toList nv = true)
    (hsnap : hasSuffix "SNAPSHOT".toList st.currentVersion = true)
    (hne : rv ≠ stripFirst "-SNAPSHOT".toList st.currentVersion) :
    releaseRun rv nv kv d st = ⟨[], .error .inconsistentMinor⟩ := by
  have h2 : nextBad nv = false := by
    unfold nextBad
    rw [hnvs]
    simp
  have h4 : minorMismatch st.currentVersion rv = true := by
    unfold minorMismatch
    rw [hsnap, Bool.true_and]
    exact decide_eq_true hne
  unfold releaseRun
  rw [if_neg (by simp [hkv]), if_neg (by simp [h2]), if_neg hnv, if_pos h4]

/-- C5 witness: with current version `1.2.0-SNAPSHOT`, releasing `1.3.0` is
rejected as inconsistent. -/
theorem c5_minor_consistency_witness :
    ("1.3.0".toList ≠ stripFirst "-SNAPSHOT".toList
      "1.2.0-SNAPSHOT".toList) ∧
    releaseRun "1.3.0".toList "1.4.0-SNAPSHOT".toList [] false
        ⟨[], [], "main".toList, "1.2.0-SNAPSHOT".toList⟩
      = ⟨[], .error .inconsistentMinor⟩ :=
  ⟨by decide, c5_minor_consistency "1.3.0".toList "1.4.0-SNAPSHOT".toList []
    false ⟨[], [], "main".toList, "1.2.0-SNAPSHOT".toList⟩
    (by decide) (by decide) (by decide) (by decide) (by decide)⟩

/-- C6. Whenever the tag `v⟨releaseVersion⟩` already exists, the run aborts
with a fatal error (exit code 1) and an empty effect trace: nothing is checked
out, committed, tagged or pushed, so the repository state is unchanged. -/
theorem c6_existing_tag_aborts (rv nv kv : Str) (d : Bool) (st : RepoState)
    (h : ('v' :: rv) ∈ st.tags) :
    (releaseRun rv nv kv d st).trace = [] ∧
    (releaseRun rv nv kv d st).result ≠ .ok () := by
  unfold releaseRun
  repeat' first
    | dsimp only
    | split
  all_goals first
    | exact ⟨rfl, by simp⟩
    | exact releaseCore_tag_aborts rv nv kv d st h

/-- C6 witness: re-releasing `1.2.1` when `v1.2.1` is already tagged aborts
with an empty trace. -/
theorem c6_existing_tag_aborts_witness :
    ('v' :: "1.2.1".toList) ∈
      (⟨["releases/v1.2.x".toList], ["v1.2.1".toList], "main".toList,
        "1.2.0".toList⟩ : RepoState).tags ∧
    (releaseRun "1.2.1".toList [] [] false
      ⟨["releases/v1.2.x".toList], ["v1.2.1".toList], "main".toList,
        "1.2.0".toList⟩).trace = [] ∧
    (releaseRun "1.2.1".toList [] [] false
      ⟨["releases/v1.2.x".toList], ["v1.2.1".toList], "main".toList,
        "1.2.0".toList⟩).result ≠ .ok () :=
  ⟨by decide, c6_existing_tag_aborts "1.2.1".toList [] [] false
    ⟨["releases/v1.2.x".toList], ["v1.2.1".toList], "main".toList,
      "1.2.0".toList⟩ (by decide)⟩

/-! ## Commit classifier and bump policy (spec sections 4.2-4.3)

The classifier and bump-policy implementation is not among the repository's
source files (the sources hold only release plumbing); the definitions below
are modelled from the spec. -/

/-- Modelled from the spec: `BumpClassification`, one of BREAKING / FEATURE /
FIX / OTHER. -/
inductive Bump where
  | other
  | fix
  | feature
  | breaking
  deriving DecidableEq, Repr

/-- Severity order: BREAKING > FEATURE > FIX > OTHER. -/
def bumpSev : Bump → Nat
  | .other => 0
  | .fix => 1
  | .feature => 2
  | .breaking => 3

def bumpMax (a b : Bump) : Bump := if bumpSev a ≤ bumpSev b then b else a

/-- Modelled from the spec: one commit message, subject and body. -/
structure Commit where
  subject : Str
  body : Str
  deriving DecidableEq, Repr

def lowerStr (s : Str) : Str := s.map Char.toLower

def dropToClose : Str → Option Str
  | [] => none
  | ')' :: rest => some rest
  | _ :: rest => dropToClose rest

/-- Skip an optional parenthesized scope. -/
def dropScope : Str → Option Str
  | '(' :: rest => dropToClose rest
  | s => some s

/-- Case-folded subject rest after a keyword and an optional scope. -/
def afterKeyword (kw s : Str) : Option Str :=
  if kw.isPrefixOf (lowerStr s) then dropScope ((lowerStr s).drop kw.length)
  else none

/-- Subject matches `⟨kw⟩` + optional `(scope)` + `:`. -/
def subjectColon (kw s : Str) : Bool :=
  match afterKeyword kw s with
  | some (':' :: _) => true
  | _ => false

/-- Subject matches `⟨kw⟩` + optional `(scope)` + `!:` (breaking shorthand). -/
def subjectBangColon (kw s : Str) : Bool :=
  match afterKeyword kw s with
  | some ('!' :: ':' :: _) => true
  | _ => false

/-- Modelled from the spec, rule 1: the case-folded subject+body contains the
phrase "breaking change", or the subject is a `feat` marked with `!`. -/
def commitBreaking (c : Commit) : Bool :=
  containsSub "breaking change".toList (lowerStr (c.subject ++ c.body)) ||
    subjectBangColon "feat".toList c.subject

/-- The classification of a single commit under the spec's rules 1-4. -/
def classifyCommit (c : Commit) : Bump :=
  if commitBreaking c then .breaking
  else if subjectColon "feat".toList c.subject then .feature
  else if subjectColon "fix".toList c.subject then .fix
  else .other

/-- Modelled from the spec: `classify(commits)` with the rules evaluated in
priority order over the whole set ("if any commit ..."). -/
def classify (cs : List Commit) : Bump :=
  if cs.any commitBreaking then .breaking
  else if cs.any (fun c => subjectColon "feat".toList c.subject) then .feature
  else if cs.any (fun c => subjectColon "fix".toList c.subject) then .fix
  else .other

/-- Modelled from the spec: `SemVer` with the three numeric components and
the snapshot flag. -/
structure SemVer where
  major : Nat
  minor : Nat
  patch : Nat
  isSnapshot : Bool
  deriving DecidableEq, Repr

/-- Modelled from the spec (section 4.3): expectedNextVersion. -/
def expectedNextVersion (v : SemVer) : Bump → SemVer
  | .breaking => ⟨v.major + 1, 0, 0, false⟩
  | .feature => ⟨v.major, v.minor + 1, 0, false⟩
  | _ => ⟨v.major, v.minor, v.patch + 1, false⟩

theorem classify_cons (c : Commit) (cs : List Commit) :
    classify (c :: cs) = bumpMax (classifyCommit c) (classify cs) := by
  unfold classify classifyCommit
  rw [List.any_cons, List.any_cons, List.any_cons]
  cases hb : commitBreaking c <;>
    cases hf : subjectColon "feat".toList c.subject <;>
    cases hx : subjectColon "fix".toList c.subject <;>
    cases hab : cs.any commitBreaking <;>
    cases haf : cs.any (fun c => subjectColon "feat".toList c.subject) <;>
    cases hax : cs.any (fun c => subjectColon "fix".toList c.subject) <;>
    rfl

theorem classify_eq_foldr (cs : List Commit) :
    classify cs = (cs.map classifyCommit).foldr bumpMax .other := by
  induction cs with
  | nil => rfl
  | cons c cs ih =>
    rw [classify_cons, ih]
    simp

theorem any_of_perm {α : Type} (p : α → Bool) {l1 l2 : List α}
    (h : l1.Perm l2) : l1.any p = l2.any p := by
  have h12 : l1.any p = true ↔ l2.any p = true := by
    simp only [List.any_eq_true]
    constructor <;> rintro ⟨x, hx, hp⟩
    · exact ⟨x, h.mem_iff.mp hx, hp⟩
    · exact ⟨x, h.mem_iff.mpr hx, hp⟩
  cases hl1 : l1.any p <;> cases hl2 : l2.any p <;> simp_all

theorem classify_perm {cs cs' : List Commit} (h : cs.Perm cs') :
    classify cs = classify cs' := by
  unfold classify
  rw [any_of_perm _ h, any_of_perm _ h, any_of_perm _ h]

/-- C7. `classify` returns the maximum severity across the whole commit set
(fold of `bumpMax` over per-commit classifications), is independent of commit
order, and on the set {"feat(api): add endpoint", "fix: typo"} returns FEATURE
with expected next version (1,2,3) → (1,3,0). -/
theorem c7_classify_max_severity :
    (∀ cs : List Commit,
      classify cs = (cs.map classifyCommit).foldr bumpMax .other) ∧
    (∀ cs cs' : List Commit, cs.Perm cs' → classify cs = classify cs') ∧
    classify [⟨"feat(api): add endpoint".toList, []⟩,
      ⟨"fix: typo".toList, []⟩] = .feature ∧
    expectedNextVersion ⟨1, 2, 3, false⟩ .feature = ⟨1, 3, 0, false⟩ :=
  ⟨classify_eq_foldr, fun _ _ h => classify_perm h, by decide, rfl⟩

/-- C7 witness: the two-commit set classifies the same in either order. -/
theorem c7_classify_max_severity_witness :
    ((([⟨"feat(api): add endpoint".toList, []⟩,
        ⟨"fix: typo".toList, []⟩] : List Commit)).Perm
      [⟨"fix: typo".toList, []⟩, ⟨"feat(api): add endpoint".toList, []⟩]) ∧
    classify [⟨"feat(api): add endpoint".toList, []⟩,
        ⟨"fix: typo".toList, []⟩]
      = classify [⟨"fix: typo".toList, []⟩,
        ⟨"feat(api): add endpoint".toList, []⟩] :=
  ⟨List.Perm.swap _ _ _,
    c7_classify_max_severity.2.1 _ _ (List.Perm.swap _ _ _)⟩

/-! ## Hotfix / cherry-pick orchestrator (spec section 4.5)

The orchestrator implementation is not among the repository's source files
(only the `commitIdsList` CLI input is described); modelled from the spec. -/

/-- Modelled from the spec: apply the commit ids in list order with the
version-control capability `pick` (`none` = the commit does not apply
cleanly); returns the state reached and the first failing commit id. -/
def applyList {σ : Type} (pick : Str → σ → Option σ) :
    σ → List Str → σ × Option Str
  | s, [] => (s, none)
  | s, cid :: rest =>
    match pick cid s with
    | some s2 => applyList pick s2 rest
    | none => (s, some cid)

/-- Outcome of a hotfix run: final working state, created tag, conflict. -/
structure HotfixOutcome (σ : Type) where
  finalState : σ
  newTag : Option Str
  conflict : Option Str

/-- Modelled from the spec: `applyHotfix` — start from the state at `baseTag`,
apply `commitIds` in order; on the first conflict reset the working state back
to the base state exactly, create no tag and report the failing id; on full
success create the tag `v⟨targetVersion⟩`. -/
def applyHotfix {σ : Type} (pick : Str → σ → Option σ) (base : σ)
    (commitIds : List Str) (targetVersion : Str) : HotfixOutcome σ :=
  match (applyList pick base commitIds).2 with
  | some cid => ⟨base, none, some cid⟩
  | none =>
    ⟨(applyList pick base commitIds).1, some ('v' :: targetVersion), none⟩

theorem applyList_conflict {σ : Type} (pick : Str → σ → Option σ) (s : σ)
    (ids : List Str) (cid : Str)
    (h : (applyList pick s ids).2 = some cid) :
    ∃ p suf, ids = p ++ cid :: suf ∧ (applyList pick s p).2 = none ∧
      pick cid (applyList pick s p).1 = none := by
  induction ids generalizing s with
  | nil => simp [applyList] at h
  | cons c rest ih =>
    unfold applyList at h
    cases ha : pick c s with
    | none =>
      rw [ha] at h
      simp at h
      subst h
      exact ⟨[], rest, rfl, rfl, ha⟩
    | some s2 =>
      rw [ha] at h
      rcases ih s2 h with ⟨p, suf, hids, hp2, hap⟩
      refine ⟨c :: p, suf, by simp [hids], ?_, ?_⟩
      · show (applyList pick s (c :: p)).2 = none
        unfold applyList
        simp only [ha]
        exact hp2
      · show pick cid (applyList pick s (c :: p)).1 = none
        unfold applyList
        simp only [ha]
        exact hap

/-- C8. The hotfix orchestrator is all-or-nothing: if it reports a conflict on
commit id `cid`, the final state is exactly the base state (no partial commits
survive), no tag is created, and `cid` is the first commit in list order that
fails to apply (all earlier ones applied cleanly); if no conflict is reported,
the tag `v⟨targetVersion⟩` is created on the fully-applied state. -/
theorem c8_hotfix_all_or_nothing :
    (∀ (σ : Type) (pick : Str → σ → Option σ) (base : σ) (ids : List Str)
        (tv cid : Str),
      (applyHotfix pick base ids tv).conflict = some cid →
        (applyHotfix pick base ids tv).finalState = base ∧
        (applyHotfix pick base ids tv).newTag = none ∧
        ∃ p suf, ids = p ++ cid :: suf ∧ (applyList pick base p).2 = none ∧
          pick cid (applyList pick base p).1 = none) ∧
    (∀ (σ : Type) (pick : Str → σ → Option σ) (base : σ) (ids : List Str)
        (tv : Str),
      (applyHotfix pick base ids tv).conflict = none →
        (applyHotfix pick base ids tv).newTag = some ('v' :: tv) ∧
        (applyHotfix pick base ids tv).finalState
          = (applyList pick base ids).1) := by
  constructor
  · intro σ pick base ids tv cid h
    revert h
    unfold applyHotfix
    cases hr : (applyList pick base ids).2 with
    | none => intro h; simp at h
    | some c =>
      intro h
      simp at h
      subst h
      exact ⟨rfl, rfl, applyList_conflict pick base ids c hr⟩
  · intro σ pick base ids tv h
    revert h
    unfold applyHotfix
    cases hr : (applyList pick base ids).2 with
    | none => intro _; exact ⟨rfl, rfl⟩
    | some c => intro h; simp at h

/-- A concrete cherry-pick capability where only commit "c2" conflicts. -/
def pickEx : Str → Nat → Option Nat :=
  fun cid s => if cid = "c2".toList then none else some (s + 1)

/-- C8 witness: applying ["c1","c2"] where "c2" conflicts resets to the base
state, creates no tag, and names "c2". -/
theorem c8_hotfix_all_or_nothing_witness :
    ((applyHotfix pickEx 0 ["c1".toList, "c2".toList]
      "1.2.3".toList).conflict = some "c2".toList) ∧
    ((applyHotfix pickEx 0 ["c1".toList, "c2".toList]
        "1.2.3".toList).finalState = 0 ∧
      (applyHotfix pickEx 0 ["c1".toList, "c2".toList]
        "1.2.3".toList).newTag = none ∧
      ∃ p suf, ["c1".toList, "c2".toList] = p ++ "c2".toList :: suf ∧
        (applyList pickEx 0 p).2 = none ∧
        pickEx "c2".toList (applyList pickEx 0 p).1 = none) :=
  ⟨by decide, c8_hotfix_all_or_nothing.1 Nat pickEx 0
    ["c1".toList, "c2".toList] "1.2.3".toList "c2".toList (by decide)⟩

/-! ## Embedding of `src/actions/comment-update/src/index.ts` -/

/-- JS `ToInt32`: wrap an integer into `[-2^31, 2^31)`. -/
def toInt32 (n : Int) : Int := (n + 2147483648) % 4294967296 - 2147483648

/-- JS `>>> 0`: the unsigned 32-bit value. -/
def toUint32 (n : Int) : Nat := (n % 4294967296).toNat

/-- One step of `_simpleHash` (index.ts:119-127): `(hash << 5) - hash + char`.
`<<` coerces its operand through ToInt32 and yields an int32; the subtraction
and addition are exact. `charCodeAt` yields UTF-16 units, which coincide with
code points for the BMP strings involved. -/
def hashStep (h : Int) (c : Char) : Int :=
  toInt32 (toInt32 h * 32) - h + c.toNat

/-- A digit of `Number.prototype.toString(36)`: 0-9 then lowercase a-z. -/
def base36Digit (n : Nat) : Char :=
  if n < 10 then Char.ofNat (48 + n) else Char.ofNat (87 + n)

def base36Aux : Nat → Nat → Str
  | 0, _ => []
  | fuel + 1, n =>
    if n < 36 then [base36Digit n]
    else base36Aux fuel (n / 36) ++ [base36Digit (n % 36)]

/-- `Number.prototype.toString(36)` on a non-negative integer. -/
def base36 (n : Nat) : Str := base36Aux (n + 1) n

/-- `String.prototype.padStart(7, '0')`. -/
def padStart7 (s : Str) : Str := List.replicate (7 - s.length) '0' ++ s

/-- `_simpleHash` (index.ts:119-127). -/
def simpleHash (s : Str) : Str :=
  padStart7 (base36 (toUint32 (s.foldl hashStep 0)))

/-- One `<!-- hash --> ... <!-- /hash -->` section of the marked comment
(`_sectionContent`, index.ts:129-137), modelled structurally: the delimiter
hash together with the payload it wraps. -/
structure CSection where
  hash : Str
  title : Str
  content : Str
  deriving DecidableEq, Repr

/-- `_sectionContent` keys the delimiters by `this.titleHash`. -/
def sectionContent (title content : Str) : CSection :=
  ⟨simpleHash title, title, content⟩

/-- One issue comment: its id, whether its body contains the MARKER, and the
sections of its body. -/
structure PRComment where
  id : Nat
  marked : Bool
  sections : List CSection
  deriving DecidableEq, Repr

/-- `_findComment` (index.ts:104-117): the first comment, in listing order,
whose body includes the MARKER. -/
def findComment (cs : List PRComment) : Option PRComment :=
  (cs.filter (fun c => c.marked)).head?

/-- The section update of `_addComment` (index.ts:154-165): the regex
`<!-- hash -->(.*?)<!-- \/hash -->` (global, dotall, non-greedy) matches every
section whose delimiter hash equals the current title's hash; when it matches,
`replaceAll` replaces each such section with the freshly rendered one,
otherwise the new section is appended. -/
def updateSections (secs : List CSection) (title content : Str) :
    List CSection :=
  if secs.any (fun s => s.hash = simpleHash title) then
    secs.map (fun s =>
      if s.hash = simpleHash title then sectionContent title content else s)
  else secs ++ [sectionContent title content]

/-- `_addComment` (index.ts:139-178): create a single marked comment when none
carries the MARKER, otherwise update the body of the found comment (by its
id). -/
def addComment (st : List PRComment) (freshId : Nat) (title content : Str) :
    List PRComment :=
  match findComment st with
  | none => st ++ [⟨freshId, true, [sectionContent title content]⟩]
  | some cm =>
    st.map (fun c =>
      if c.id = cm.id then
        { c with sections := updateSections c.sections title content }
      else c)

def countMarked (st : List PRComment) : Nat :=
  (st.filter (fun c => c.marked)).length

theorem findComment_eq_none_iff (st : List PRComment) :
    findComment st = none ↔ countMarked st = 0 := by
  simp [findComment, countMarked, List.head?_eq_none_iff, List.length_eq_zero]

theorem countMarked_append (a b : List PRComment) :
    countMarked (a ++ b) = countMarked a + countMarked b := by
  simp [countMarked, List.filter_append]

theorem countMarked_map_invariant (st : List PRComment)
    (f : PRComment → PRComment) (h : ∀ c, (f c).marked = c.marked) :
    countMarked (st.map f) = countMarked st := by
  induction st with
  | nil => rfl
  | cons c cs ih =>
    simp only [countMarked, List.map_cons, List.filter_cons, h c] at *
    cases c.marked <;> simp_all

theorem filter_ne_map_replace (l : List CSection) (title content : Str) :
    (l.map (fun s =>
        if s.hash = simpleHash title then sectionContent title content
        else s)).filter (fun s => s.hash ≠ simpleHash title)
      = l.filter (fun s => s.hash ≠ simpleHash title) := by
  induction l with
  | nil => rfl
  | cons a l ih =>
    by_cases ha : a.hash = simpleHash title
    · simpa [List.filter_cons, ha, sectionContent] using ih
    · simpa [List.filter_cons, ha] using ih

theorem updateSections_filter_ne (secs : List CSection) (title content : Str) :
    (updateSections secs title content).filter
        (fun s => s.hash ≠ simpleHash title)
      = secs.filter (fun s => s.hash ≠ simpleHash title) := by
  unfold updateSections
  split
  · exact filter_ne_map_replace secs title content
  · simp [List.filter_append, sectionContent]

theorem updateSections_mem (secs : List CSection) (title content : Str)
    (s : CSection) (hs : s ∈ updateSections secs title content)
    (hh : s.hash = simpleHash title) : s = sectionContent title content := by
  unfold updateSections at hs
  by_cases hany : secs.any (fun s => s.hash = simpleHash title) = true
  · rw [if_pos hany] at hs
    rcases List.mem_map.mp hs with ⟨t, ht, hft⟩
    by_cases hth : t.hash = simpleHash title
    · rw [if_pos hth] at hft
      exact hft.symm
    · rw [if_neg hth] at hft
      subst hft
      exact absurd hh hth
  · rw [if_neg hany] at hs
    simp only [List.any_eq_true, decide_eq_true_eq] at hany
    rcases List.mem_append.mp hs with h1 | h1
    · exact absurd ⟨s, h1, hh⟩ hany
    · simpa using h1

/-- C9 counterexample: the titles "Aa" and "BB" have the same 32-bit hash, so
their section delimiters coincide; after the action writes the "Aa" section,
a run with the different title "BB" replaces — not preserves — the "Aa"
section. -/
theorem c9_title_hash_collision :
    simpleHash "Aa".toList = simpleHash "BB".toList ∧
    addComment [] 0 "Aa".toList "x".toList
      = [⟨0, true, [⟨simpleHash "Aa".toList, "Aa".toList, "x".toList⟩]⟩] ∧
    addComment (addComment [] 0 "Aa".toList "x".toList) 1 "BB".toList
        "y".toList
      = [⟨0, true, [⟨simpleHash "BB".toList, "BB".toList, "y".toList⟩]⟩] := by
  refine ⟨by decide, by decide, by decide⟩

/-- C9 (amended). The action maintains at most one marker comment per pull
request: a run either creates the single marked comment (when none contains
the marker) or updates the first marked comment in listing order; sections are
delimited by the deterministic 32-bit hash of the title, a re-run with the
same title replaces exactly the sections carrying that title's hash (each
becomes the freshly rendered section), and every section whose delimiter hash
differs is left unchanged — a *different* title whose hash collides is
overwritten too, so preservation is keyed by hash, not by title. -/
theorem c9_one_marked_comment (st : List PRComment) (fid : Nat)
    (title content : Str) :
    (countMarked st ≤ 1 → countMarked (addComment st fid title content) ≤ 1) ∧
    (findComment st = none →
      addComment st fid title content
        = st ++ [⟨fid, true, [sectionContent title content]⟩]) ∧
    (∀ cm, findComment st = some cm →
      addComment st fid title content
        = st.map (fun c =>
            if c.id = cm.id then
              { c with sections := updateSections c.sections title content }
            else c)) ∧
    (∀ secs : List CSection,
      (updateSections secs title content).filter
          (fun s => s.hash ≠ simpleHash title)
        = secs.filter (fun s => s.hash ≠ simpleHash title)) ∧
    (∀ (secs : List CSection) (s : CSection),
      s ∈ updateSections secs title content → s.hash = simpleHash title →
        s = sectionContent title content) := by
  refine ⟨?_, ?_, ?_, fun secs => updateSections_filter_ne secs title content,
    fun secs s hs hh => updateSections_mem secs title content s hs hh⟩
  · intro hle
    unfold addComment
    cases h : findComment st with
    | none =>
      have h0 : countMarked st = 0 := (findComment_eq_none_iff st).mp h
      rw [countMarked_append, h0]
      simp [countMarked]
    | some cm =>
      rw [countMarked_map_invariant]
      · exact hle
      · intro c
        by_cases hc : c.id = cm.id
        · rw [if_pos hc]
        · rw [if_neg hc]
  · intro h
    unfold addComment
    rw [h]
  · intro cm h
    unfold addComment
    rw [h]

/-- C9 witness: a run on a pull request with no prior marked comment creates
exactly one marked comment. -/
theorem c9_one_marked_comment_witness :
    countMarked [] ≤ 1 ∧
    countMarked (addComment [] 7 "Artifacts".toList "body".toList) ≤ 1 :=
  ⟨by decide,
    (c9_one_marked_comment [] 7 "Artifacts".toList "body".toList).1
      (by decide)⟩

/-! ## Embedding of
`src/composite/github-release-note-merge/github-release-note-merge.js` -/

/-- One entry of `SOURCE_REPOS` (lines 4-15). -/
structure SourceRepo where
  owner : Str
  repo : Str
  title : Str
  deriving DecidableEq, Repr

def sourceRepos : List SourceRepo :=
  [⟨"kestra-io".toList, "kestra".toList,
     "Kestra Open-Source Edition Changes".toList⟩,
   ⟨"kestra-io".toList, "kestra-ee".toList,
     "Kestra Enterprise Edition Changes".toList⟩]

/-- Result of fetching `/repos/⟨owner⟩/⟨repo⟩/releases/tags/⟨RELEASE_TAG⟩`:
success with the release body, a 404 Not Found error, or any other error. -/
inductive Fetch where
  | ok (body : Str)
  | notFound
  | otherError
  deriving DecidableEq, Repr

/-- One source's promise (lines 54-71): on success the note formatted as
`## ⟨title⟩\n\n⟨body⟩`; on failure `null`, and only a 404 clears the
`allReleasesFound` flag (second component). -/
def fetchNote (f : Fetch) (title : Str) : Option Str × Bool :=
  match f with
  | .ok body => (some ("## ".toList ++ title ++ "\n\n".toList ++ body), true)
  | .notFound => (none, false)
  | .otherError => (none, true)

/-- `Array.prototype.join(sep)` on the non-null notes. -/
def joinSep (sep : Str) : List Str → Str
  | [] => []
  | [x] => x
  | x :: xs => x ++ sep ++ joinSep sep xs

/-- `getMergedChangelog` (lines 49-85): fetch each source's release notes;
`null` when any source returned 404, otherwise the non-null notes joined with
the separator. -/
def getMergedChangelog (fetch : Str → Str → Fetch) : Option Str :=
  let results := sourceRepos.map (fun r => fetchNote (fetch r.owner r.repo) r.title)
  if results.all (fun p => p.2) then
    some (joinSep "\n\n---\n\n".toList (results.filterMap (fun p => p.1)))
  else none

/-- `main` + `updateReleaseNotes` (lines 88-147): the body PATCHed onto the
target release, `none` when no update request is issued. `tokenSet`/`tagSet`
model the `GITHUB_TOKEN`/`RELEASE_TAG` env guards; `targetRelease` is the id
of the target repository's release for the tag (`none` when the GET fails or
the response carries no id — `updateReleaseNotes` then catches and only
logs). The merged changelog is also checked for JS truthiness: an empty
string would not be sent. -/
def mainRun (fetch : Str → Str → Fetch) (tokenSet tagSet : Bool)
    (targetRelease : Option Nat) : Option Str :=
  if !tokenSet then none
  else if !tagSet then none
  else
    match getMergedChangelog fetch with
    | none => none
    | some s =>
      if s = [] then none
      else
        match targetRelease with
        | none => none
        | some _ => some s

/-- A fetch assignment where the open-source repo succeeds and the enterprise
repo fails with a non-404 error. -/
def fetchCE : Str → Str → Fetch :=
  fun _ repo => if repo = "kestra-ee".toList then .otherError else .ok "A".toList

/-- C10 counterexample: a non-404 fetch failure on one source does not halt
the run — the target release is updated with only the other source's note,
so the outcome is neither "merged notes of all sources" nor "left entirely
unchanged". -/
theorem c10_partial_merge_counterexample :
    mainRun fetchCE true true (some 1)
      = some "## Kestra Open-Source Edition Changes\n\nA".toList ∧
    fetchCE "kestra-io".toList "kestra-ee".toList = .otherError := by
  refine ⟨by decide, by decide⟩

/-- C10 (amended). If fetching the release for the tag from any source
repository returns 404 Not Found, no update request is issued (the target
release body is unmodified); when every source fetch succeeds (and the target
release exists), the target is updated with the merged notes of all sources in
order. A non-404 fetch failure, however, does not halt the run: the failed
source's note is silently skipped, so the target can be updated with only the
successful sources' notes. -/
theorem c10_merge_halts_on_404 (fetch : Str → Str → Fetch)
    (token tag : Bool) (target : Option Nat) (rid : Nat) (b1 b2 : Str) :
    ((∃ r ∈ sourceRepos, fetch r.owner r.repo = .notFound) →
      mainRun fetch token tag target = none) ∧
    (fetch "kestra-io".toList "kestra".toList = .ok b1 →
      fetch "kestra-io".toList "kestra-ee".toList = .ok b2 →
      mainRun fetch true true (some rid)
        = some ("## Kestra Open-Source Edition Changes\n\n".toList ++ b1
            ++ "\n\n---\n\n## Kestra Enterprise Edition Changes\n\n".toList
            ++ b2)) := by
  constructor
  · rintro ⟨r, hr, hf⟩
    cases token with
    | false => rfl
    | true =>
      cases tag with
      | false => rfl
      | true =>
        have hmc : getMergedChangelog fetch = none := by
          simp only [sourceRepos, List.mem_cons, List.mem_singleton,
            List.not_mem_nil, or_false] at hr
          rcases hr with hr | hr <;>
            · subst hr
              simp at hf
              simp [getMergedChangelog, sourceRepos, fetchNote, hf]
        unfold mainRun
        rw [hmc]
        rfl
  · intro h1 h2
    have hmc : getMergedChangelog fetch
        = some ("## Kestra Open-Source Edition Changes\n\n".toList ++ b1
            ++ "\n\n---\n\n## Kestra Enterprise Edition Changes\n\n".toList
            ++ b2) := by
      simp at h1 h2
      simp [getMergedChangelog, sourceRepos, fetchNote, joinSep, h1, h2]
    unfold mainRun
    rw [hmc]
    simp

/-- A fetch assignment where both sources succeed. -/
def fetchOk : Str → Str → Fetch :=
  fun _ repo =>
    if repo = "kestra-ee".toList then .ok "B".toList else .ok "A".toList

/-- C10 witness: with both source fetches succeeding, the target release is
updated with the two sources' notes merged in order. -/
theorem c10_merge_halts_on_404_witness :
    fetchOk "kestra-io".toList "kestra".toList = .ok "A".toList ∧
    mainRun fetchOk true true (some 1)
      = some ("## Kestra Open-Source Edition Changes\n\n".toList
          ++ "A".toList
          ++ "\n\n---\n\n## Kestra Enterprise Edition Changes\n\n".toList
          ++ "B".toList) :=
  ⟨by decide,
    (c10_merge_halts_on_404 fetchOk true true (some 1) 1 "A".toList
      "B".toList).2 (by decide) (by decide)⟩

end KestraActions
